import Mathlib

/-!
Verification of the layout-analysis / annotation-placement engine of the
AI-Lesson-Plan-Annotations repository, shallowly embedded from
`smart_overlay_annotator.py`.  Python floats are modelled as rationals,
Python strings as Lean strings (lists of unicode code points, matching
Python's code-point semantics for `len` and slicing), fallible calls as
`Except`-valued steps.
-/

/- Batteries marks the rational-number operations `@[irreducible]`, which is
an elaborator-only hint; re-enable unfolding so that concrete computations on
page geometry can be settled by `decide`. -/
unseal Rat.add Rat.sub Rat.mul Rat.inv

set_option maxRecDepth 40000

/-! ## Python string primitives used by the source -/

/-- Model of Python's whitespace test used by `str.strip` / `str.split()`. -/
def pyIsWs (c : Char) : Bool := c.isWhitespace

/-- Drop leading and trailing whitespace from a character list
(model of Python `str.strip()`). -/
def stripData (l : List Char) : List Char :=
  ((l.dropWhile pyIsWs).reverse.dropWhile pyIsWs).reverse

/-- Model of Python `str.strip()`. -/
def pyStrip (s : String) : String := ⟨stripData s.data⟩

/-- Model of Python `str.replace(c, '')` for a single-character pattern:
removes every occurrence of the character. -/
def removeChar (c : Char) (s : String) : String := ⟨s.data.filter (fun x => x != c)⟩

/-- Split a character list at every character satisfying `p`, keeping empty
pieces (model of Python `str.split(sep)` semantics for one-char separators,
and the piece structure of `str.split()` before empty pieces are dropped). -/
def splitOnP (p : Char → Bool) : List Char → List (List Char)
  | [] => [[]]
  | c :: rest =>
    if p c then [] :: splitOnP p rest
    else
      match splitOnP p rest with
      | [] => [[c]]
      | h :: t => (c :: h) :: t

/-- Model of Python `text.split('\n')`. -/
def pyLines (s : String) : List String :=
  (splitOnP (fun c => c == '\n') s.data).map String.mk

/-- Model of Python `text.split()` (split on whitespace, dropping empty pieces). -/
def pySplitWs (s : String) : List String :=
  ((splitOnP pyIsWs s.data).map String.mk).filter (fun w => !w.isEmpty)

/-- Boolean contiguous-substring test, model of Python's `in` on strings. -/
def isInfixB (pat : List Char) : List Char → Bool
  | [] => pat.isEmpty
  | c :: rest => pat.isPrefixOf (c :: rest) || isInfixB pat rest

/-- Model of Python `s in t` for strings. -/
def strContains (t pat : String) : Bool := isInfixB pat.data t.data

/-- Model of Python `str.startswith` (single prefix). -/
def pyStartsWith (s pre : String) : Bool := pre.data.isPrefixOf s.data

/-- Model of Python `str.endswith` (single suffix). -/
def pyEndsWith (s suf : String) : Bool := suf.data.isSuffixOf s.data

/-- Model of Python `str.startswith((p1, p2, ...))`. -/
def startsWithAny (s : String) (pres : List String) : Bool :=
  pres.any (fun p => pyStartsWith s p)

/-- Model of Python `s[:n]` (first `n` code points). -/
def pyTake (s : String) (n : Nat) : String := ⟨s.data.take n⟩

/-- Model of Python `s.split(':')[0]`: the part before the first colon
(the whole string when there is no colon). -/
def beforeFirstColon (s : String) : String := ⟨s.data.takeWhile (fun c => c != ':')⟩

/-- Model of Python `s.split(':', 1)[1]`: the part after the first colon
(only used by the source under an `':' in s` guard). -/
def afterFirstColon (s : String) : String := ⟨(s.data.dropWhile (fun c => c != ':')).tail⟩

/-- Model of Python `str.lower()` (the source only relies on ASCII behaviour;
this is `String.toLower` written over the character list). -/
def pyLower (s : String) : String := ⟨s.data.map Char.toLower⟩

/-- Model of Python `int(q)` on a nonnegative/any rational: truncation toward
zero (`Int.div` is T-division). -/
def pyInt (q : ℚ) : ℤ := Int.tdiv q.num (q.den : ℤ)

/-- Model of Python `" ".join` (with the source's single-space separator). -/
def joinSp : List String → String
  | [] => ""
  | [w] => w
  | w :: ws => w ++ " " ++ joinSp ws

/-- Stable insertion used to model Python's stable `sorted`/`list.sort`:
`x` skips over every `y` with `lt x y = true` and lands before the first
other element. With `lt x y := key y < key x` this is stable ascending
sort by `key`; with `lt x y := key x < key y` it is stable descending
sort (Python's `reverse=True`). -/
def pyInsort (lt : α → α → Bool) (x : α) : List α → List α
  | [] => [x]
  | y :: ys => if lt x y then y :: pyInsort lt x ys else x :: y :: ys

/-- Stable sort built from `pyInsort` (model of Python `sorted`). -/
def pySort (lt : α → α → Bool) (l : List α) : List α :=
  l.foldr (pyInsort lt) []

/-- Model of Python `dict.get(k, default)` over an insertion-ordered dict. -/
def dictGet (d : List (String × α)) (k : String) (default : α) : α :=
  match d.find? (fun p => p.1 == k) with
  | some p => p.2
  | none => default

/-- Model of Python `max(iterable, key=f)` seeded with a first element:
keeps the first maximal element. -/
def pyMaxBy (f : α → ℚ) : α → List α → α
  | acc, [] => acc
  | acc, x :: xs => pyMaxBy f (if f acc < f x then x else acc) xs

/-! ## Data model (from the source's dict/dataclass shapes) -/

/-- A text block's bounding box `(x0, y0, x1, y1)` as produced by
`page.get_text("dict")`. -/
structure BBox where
  x0 : ℚ
  y0 : ℚ
  x1 : ℚ
  y1 : ℚ
deriving DecidableEq

/-- A span inside a line of a text block (`"text"` key may be absent). -/
structure Span where
  text : Option String
deriving DecidableEq

/-- A line inside a text block (`"spans"` key may be absent). -/
structure TLine where
  spans : Option (List Span)
deriving DecidableEq

/-- A text block (`"bbox"` / `"lines"` keys may be absent). -/
structure Block where
  bbox : Option BBox
  lines : Option (List TLine)
deriving DecidableEq

/-- The dict returned by `page.get_text("dict")`: the `"blocks"` key may be
absent (unparseable geometry), or present with a possibly empty list. -/
structure TextBlocks where
  blocks : Option (List Block)
deriving DecidableEq

/-- A page rectangle (`page.rect`): width and height in points. -/
structure PageRect where
  width : ℚ
  height : ℚ
deriving DecidableEq

/-- The margins dict computed by `_calculate_margins`. -/
structure Margins where
  left : ℚ
  right : ℚ
  top : ℚ
  bottom : ℚ
deriving DecidableEq

/-- One white-space candidate region from `_find_white_spaces`. -/
structure WhiteSpace where
  wtype : String
  x : ℚ
  y : ℚ
  width : ℚ
  height : ℚ
  priority : Nat
deriving DecidableEq

/-- One content area from `_identify_content_areas`
(its `"type"` is always `"text_block"`). -/
structure ContentArea where
  bbox : BBox
  area : ℚ
  lineCount : Nat
deriving DecidableEq

/-- One classified section from `_identify_sections`. -/
structure PageSection where
  stype : String
  bbox : BBox
  textSample : String
deriving DecidableEq

/-- The `ContentHighlight` dataclass. -/
structure ContentHighlight where
  x : ℚ
  y : ℚ
  width : ℚ
  height : ℚ
  textContent : String
  highlightColor : ℚ × ℚ × ℚ
  annotationType : String
deriving DecidableEq

/-- The `SmartAnnotationBox` dataclass (with the `page_num` attribute the
planner attaches to each box). -/
structure SmartAnnotationBox where
  x : ℚ
  y : ℚ
  width : ℚ
  height : ℚ
  text : String
  annotationType : String
  confidence : ℚ
  priority : Nat
  contentRelevance : String
  color : ℚ × ℚ × ℚ
  opacity : ℚ
  relatedHighlights : List ContentHighlight
  targetContentArea : Option (ℚ × ℚ × ℚ × ℚ)
  pageNum : Nat
deriving DecidableEq

/-- One entry of `self.page_layouts` built by `_analyze_page_layouts`. -/
structure PageLayout where
  pageNum : Nat
  pageRect : PageRect
  contentAreas : List ContentArea
  margins : Margins
  whiteSpaces : List WhiteSpace
  sectionBoundaries : List PageSection
  textDensity : ℚ
deriving DecidableEq

/-! ## LayoutAnalyzer (source lines 129–315) -/

/-- `_identify_content_areas` (lines 153–170): every block with a bbox and
lines becomes a content area; the result is sorted by area, largest first
(Python's stable `sort(key=..., reverse=True)`). -/
def identify_content_areas (tb : TextBlocks) : List ContentArea :=
  match tb.blocks with
  | none => []
  | some blocks =>
    let areas := blocks.filterMap (fun b =>
      match b.bbox, b.lines with
      | some bbox, some ls =>
        some { bbox := bbox
               area := (bbox.x1 - bbox.x0) * (bbox.y1 - bbox.y0)
               lineCount := ls.length }
      | _, _ => none)
    pySort (fun a b => a.area < b.area) areas

/-- The min/max text-extent fold inside `_calculate_margins` (lines 182–193):
starting from `min_x = width, max_x = 0, min_y = height, max_y = 0`, fold every
block that has a bbox. Returns `(min_x, max_x, min_y, max_y)`. -/
def marginExtents (pageRect : PageRect) (blocks : List Block) : ℚ × ℚ × ℚ × ℚ :=
  blocks.foldl (fun acc b =>
      match b.bbox with
      | none => acc
      | some bbox =>
        (min acc.1 bbox.x0, max acc.2.1 bbox.x1, min acc.2.2.1 bbox.y0, max acc.2.2.2 bbox.y1))
    (pageRect.width, 0, pageRect.height, 0)

/-- `_calculate_margins` (lines 172–201): default margins of 50 when the
`"blocks"` key is absent, otherwise margins derived from the text envelope
with a 10-unit buffer, floored at 20. -/
def calculate_margins (pageRect : PageRect) (tb : TextBlocks) : Margins :=
  match tb.blocks with
  | none => { left := 50, right := 50, top := 50, bottom := 50 }
  | some blocks =>
    let e := marginExtents pageRect blocks
    { left := max 20 (e.1 - 10)
      right := max 20 (pageRect.width - e.2.1 - 10)
      top := max 20 (e.2.2.1 - 10)
      bottom := max 20 (pageRect.height - e.2.2.2 - 10) }

/-- `_find_white_spaces` (lines 203–266): qualifying right/left/top margin
regions, with a synthesized `right_overlay` (plus `left_overlay` for pages
wider than 500) when none qualify. -/
def find_white_spaces (pageRect : PageRect) (tb : TextBlocks) : List WhiteSpace :=
  let margins := calculate_margins pageRect tb
  let ws : List WhiteSpace :=
    (if 60 < margins.right then
      [{ wtype := "right_margin"
         x := pageRect.width - margins.right + 10
         y := 80
         width := max 150 (margins.right - 30)
         height := pageRect.height - 160
         priority := 1 }]
     else []) ++
    (if 60 < margins.left then
      [{ wtype := "left_margin"
         x := 10
         y := 80
         width := max 150 (margins.left - 30)
         height := pageRect.height - 160
         priority := 2 }]
     else []) ++
    (if 40 < margins.top then
      [{ wtype := "top_area"
         x := margins.left
         y := 10
         width := pageRect.width - margins.left - margins.right
         height := max 50 (margins.top - 20)
         priority := 3 }]
     else [])
  if ws.isEmpty then
    [{ wtype := "right_overlay"
       x := pageRect.width - 200
       y := 80
       width := 180
       height := pageRect.height - 160
       priority := 1 }] ++
    (if 500 < pageRect.width then
      [{ wtype := "left_overlay"
         x := 20
         y := 80
         width := 180
         height := pageRect.height - 160
         priority := 2 }]
     else [])
  else ws

/-- The lowercased concatenation of a block's span texts (the
`block_text` accumulation pattern of lines 284–289 and 673–678). -/
def blockText (ls : List TLine) : String :=
  ls.foldl (fun acc line =>
      match line.spans with
      | none => acc
      | some spans =>
        spans.foldl (fun acc2 span =>
            match span.text with
            | none => acc2
            | some t => acc2 ++ pyLower t ++ " ")
          acc)
    ""

/-- The fixed `section_keywords` table of `_identify_sections` (lines 275–280),
in Python dict insertion order. -/
def sectionKeywords : List (String × List String) :=
  [("objectives", ["objetivos", "objectives", "objetivo"]),
   ("materials", ["materiales", "materials", "material"]),
   ("activities", ["actividad", "activity", "nosotros", "leemos"]),
   ("assessment", ["evaluación", "assessment", "compartir", "reflexionar"])]

/-- `_identify_sections` (lines 268–301): classify each block with lines and
bbox by the first keyword set matching its lowercased text. -/
def identify_sections (tb : TextBlocks) : List PageSection :=
  match tb.blocks with
  | none => []
  | some blocks =>
    blocks.filterMap (fun b =>
      match b.lines, b.bbox with
      | some ls, some bbox =>
        let t := blockText ls
        match sectionKeywords.find? (fun kw => kw.2.any (fun k => strContains t k)) with
        | some kw => some { stype := kw.1, bbox := bbox, textSample := pyTake t 100 }
        | none => none
      | _, _ => none)

/-- `_calculate_text_density` (lines 303–315): total block area over page
area, 0.0 for a missing `"blocks"` key or a degenerate page. -/
def calculate_text_density (tb : TextBlocks) (pageRect : PageRect) : ℚ :=
  match tb.blocks with
  | none => 0
  | some blocks =>
    let totalTextArea := blocks.foldl (fun acc b =>
        match b.bbox with
        | none => acc
        | some bbox => acc + (bbox.x1 - bbox.x0) * (bbox.y1 - bbox.y0))
      0
    let pageArea := pageRect.width * pageRect.height
    if 0 < pageArea then totalTextArea / pageArea else 0

/-- `_analyze_page_layouts` (lines 129–151): one `PageLayout` per page of the
document (a page is its rect together with its `get_text("dict")` result). -/
def analyze_page_layouts (doc : List (PageRect × TextBlocks)) : List PageLayout :=
  doc.enum.map (fun p =>
    { pageNum := p.1
      pageRect := p.2.1
      contentAreas := identify_content_areas p.2.2
      margins := calculate_margins p.2.1 p.2.2
      whiteSpaces := find_white_spaces p.2.1 p.2.2
      sectionBoundaries := identify_sections p.2.2
      textDensity := calculate_text_density p.2.2 p.2.1 })

/-! ## InsightCategorizer: `_extract_annotation_points` (source lines 383–441) -/

/-- The heading test of lines 397–402: some target section name occurs
(case-insensitively) in the line together with a markdown marker. -/
def isSectionHeaderLine (sectionNames : List String) (line : String) : Bool :=
  sectionNames.any (fun sn =>
    strContains (pyLower line) (pyLower sn) &&
    (strContains line "**" || strContains line "##" || strContains line "*"))

/-- The numbered-heading prefixes of line 409. -/
def numberedPrefixes : List String :=
  ["1.", "2.", "3.", "4.", "5.", "6.", "7.", "8."]

/-- The section-exit test of line 409: a proper section header for a
different section. -/
def isExitHeaderLine (sectionNames : List String) (line : String) : Bool :=
  (pyStartsWith line "###" || (startsWithAny line numberedPrefixes && strContains line "**")) &&
  !(sectionNames.any (fun sn => strContains (pyLower line) (pyLower sn)))

/-- The intro/connecting-sentence prefixes skipped at line 414. -/
def introPrefixes : List String :=
  ["To enhance", "To accommodate", "For formative", "For summative", "To better", "To deepen"]

/-- The bullet markers of line 418. -/
def bulletPrefixes : List String := ["-", "*", "•"]

/-- The markdown-decoration cleanup of line 419:
`line.replace('*','').replace('#','').replace('-','').replace('•','').strip()`. -/
def cleanDecorations (line : String) : String :=
  pyStrip (removeChar '•' (removeChar '-' (removeChar '#' (removeChar '*' line))))

/-- The state-machine loop of `_extract_annotation_points` over the text's
lines (lines 393–439), accumulating retained points; returning `points`
models the `break` at line 410. -/
def extractLoop (sectionNames : List String) :
    List String → Bool → List String → List String
  | [], _, points => points
  | l :: rest, inSection, points =>
    let line := pyStrip l
    if isSectionHeaderLine sectionNames line then
      extractLoop sectionNames rest true points
    else if inSection && isExitHeaderLine sectionNames line then
      points
    else if inSection && !(line == "") then
      if startsWithAny line introPrefixes then
        extractLoop sectionNames rest inSection points
      else if startsWithAny line bulletPrefixes then
        let cleanLine := cleanDecorations line
        let cleanLine2 :=
          if strContains cleanLine ":" then
            let mainConcept := pyStrip (beforeFirstColon cleanLine)
            let detail := pyStrip (afterFirstColon cleanLine)
            if detail.length ≤ 60 then detail else mainConcept
          else cleanLine
        if !(cleanLine2 == "") && 10 < cleanLine2.length then
          extractLoop sectionNames rest inSection (points ++ [cleanLine2])
        else
          extractLoop sectionNames rest inSection points
      else if 20 < line.length && !(pyEndsWith line ":") && !(strContains line "**") then
        extractLoop sectionNames rest inSection (points ++ [pyStrip (removeChar '*' line)])
      else
        extractLoop sectionNames rest inSection points
    else
      extractLoop sectionNames rest inSection points

/-- `_extract_annotation_points` (lines 383–441): scan the text line by line
and keep at most the first 3 retained points. -/
def extract_annotation_points (text : String) (sectionNames : List String) : List String :=
  (extractLoop sectionNames (pyLines text) false []).take 3

/-- The categorized-annotations shape produced by `_categorize_annotations`:
three priority buckets, each an insertion-ordered mapping
category → extracted points. -/
structure Categorized where
  highPriority : List (String × List String)
  mediumPriority : List (String × List String)
  lowPriority : List (String × List String)
deriving DecidableEq

/-- `_categorize_annotations` (lines 317–346) on the default taxonomy:
the fixed category/section-name table with its priority buckets. -/
def categorize_annotations (annotationText : String) : Categorized :=
  { highPriority :=
      [("engagement", extract_annotation_points annotationText
          ["Student Engagement Opportunities",
           "Oportunidades para la participación de los estudiantes",
           "participación de los estudiantes"]),
       ("improvement", extract_annotation_points annotationText
          ["Areas for Improvement", "Áreas de mejora", "mejora"])]
    mediumPriority :=
      [("differentiation", extract_annotation_points annotationText
          ["Differentiation Strategies", "Estrategias de diferenciación", "diferenciación"]),
       ("assessment", extract_annotation_points annotationText
          ["Assessment Suggestions", "Sugerencias de evaluación", "evaluación"])]
    lowPriority :=
      [("strength", extract_annotation_points annotationText
          ["Pedagogical Strengths", "Fortalezas pedagógicas", "Fortalezas"]),
       ("resource", extract_annotation_points annotationText
          ["Resource Optimization", "Optimización de recursos", "recursos"]),
       ("extension", extract_annotation_points annotationText
          ["Extension Activities", "Actividades de extensión", "extensión"]),
       ("cultural", extract_annotation_points annotationText
          ["Cultural/Linguistic Considerations",
           "Consideraciones culturales/lingüísticas", "culturales"])]}

/-! ## PlacementPlanner (source lines 443–694 and 902–955) -/

/-- The word-wrap loop of `_calculate_text_dimensions` (lines 914–924):
`current` is the line being built; a word joins the current line when the
test line fits in `maxChars` or the current line is empty. -/
def wrapLoop (maxChars : ℤ) : List String → String → List String
  | [], current => if !(current == "") then [current] else []
  | w :: ws, current =>
    let testLine := current ++ (if !(current == "") then " " else "") ++ w
    if (testLine.length : ℤ) ≤ maxChars || current == "" then
      wrapLoop maxChars ws testLine
    else
      (if !(current == "") then [current] else []) ++ wrapLoop maxChars ws w

/-- The longest-line computation of line 931 (`0` for an empty line list). -/
def maxLineLength (lines : List String) : Nat :=
  lines.foldl (fun acc l => max acc l.length) 0

/-- `_calculate_text_dimensions` (lines 902–934): estimate character width as
half the font size, word-wrap at `int(max_width / char_width)` characters, and
return `(actual_width, total_height, lines)`. -/
def calculate_text_dimensions (text : String) (fontSize maxWidth : ℚ) :
    ℚ × ℚ × List String :=
  let charWidth := fontSize * (1/2)
  let maxCharsPerLine := pyInt (maxWidth / charWidth)
  let words := pySplitWs text
  let lines := wrapLoop maxCharsPerLine words ""
  let lineHeight := fontSize + 3
  let totalHeight := (lines.length : ℚ) * lineHeight + 16
  let actualWidth := min maxWidth ((maxLineLength lines : ℚ) * charWidth + 12)
  (actualWidth, totalHeight, lines)

/-- The priority-to-font-size rule used at lines 781 and 940:
`10 if priority == 1 else 9 if priority == 2 else 8`. -/
def fontSizeFor (priority : Nat) : ℚ :=
  if priority = 1 then 10 else if priority = 2 then 9 else 8

/-- `_calculate_optimal_box_size` (lines 936–955): clamp the text's required
dimensions into `[150, min(available_width - 20, 300)] ×
[50, min(available_height * 0.9, 400)]`. -/
def calculate_optimal_box_size (text : String) (priority : Nat)
    (availableWidth availableHeight : ℚ) : ℚ × ℚ :=
  let fontSize := fontSizeFor priority
  let minWidth : ℚ := 150
  let minHeight : ℚ := 50
  let maxWidth := min (availableWidth - 20) 300
  let maxHeight := min (availableHeight * (9/10)) 400
  let dims := calculate_text_dimensions text fontSize maxWidth
  let finalWidth := max minWidth (min dims.1 maxWidth)
  let finalHeight := max minHeight (min dims.2.1 maxHeight)
  (finalWidth, finalHeight)

/-- The `relevance_map` of `_find_content_relevance` (lines 598–605). -/
def relevanceMapSimple : List (String × String) :=
  [("engagement", "objectives"), ("differentiation", "activities"),
   ("assessment", "assessment"), ("improvement", "activities"),
   ("strength", "objectives"), ("resource", "materials")]

/-- `_find_content_relevance` (lines 596–614). -/
def find_content_relevance (annotationType : String) (sections : List PageSection) :
    String :=
  let relevantSection := dictGet relevanceMapSimple annotationType "general"
  match sections.find? (fun s => s.stype == relevantSection) with
  | some s => "Related to " ++ s.stype ++ " section"
  | none => "General insight"

/-- The `relevance_map` of `_find_relevant_content_area` (lines 618–627). -/
def relevanceMapArea : List (String × List String) :=
  [("engagement", ["objectives", "activities"]),
   ("differentiation", ["activities", "materials"]),
   ("assessment", ["assessment", "activities"]),
   ("improvement", ["activities", "objectives"]),
   ("strength", ["objectives", "activities"]),
   ("resource", ["materials", "activities"]),
   ("extension", ["activities"]),
   ("cultural", ["objectives", "activities"])]

/-- `_find_relevant_content_area` (lines 616–643): first section whose type is
targeted, falling back to the largest content area, else `None`. -/
def find_relevant_content_area (annotationType : String)
    (sections : List PageSection) (contentAreas : List ContentArea) :
    Option (ℚ × ℚ × ℚ × ℚ) :=
  let targetSections := dictGet relevanceMapArea annotationType ["activities"]
  match sections.find? (fun s => targetSections.any (fun t => s.stype == t)) with
  | some s => some (s.bbox.x0, s.bbox.y0, s.bbox.x1 - s.bbox.x0, s.bbox.y1 - s.bbox.y0)
  | none =>
    match contentAreas with
    | [] => none
    | c :: cs =>
      let largest := pyMaxBy (fun a => a.area) c cs
      some (largest.bbox.x0, largest.bbox.y0,
            largest.bbox.x1 - largest.bbox.x0, largest.bbox.y1 - largest.bbox.y0)

/-- The `highlight_keywords` table of `_find_content_highlights`
(lines 656–665). -/
def highlightKeywords : List (String × List String) :=
  [("engagement", ["actividad", "juego", "participar", "interactivo", "estudiantes"]),
   ("differentiation", ["nivel", "diferentes", "apoyo", "adaptación", "individual"]),
   ("assessment", ["evaluación", "observar", "revisar", "compartir", "reflexionar"]),
   ("improvement", ["mejorar", "añadir", "incluir", "considerar", "desarrollar"]),
   ("strength", ["efectivo", "bueno", "excelente", "apropiado", "adecuado"]),
   ("resource", ["materiales", "recursos", "tarjetas", "libro", "apoyo"]),
   ("extension", ["extensión", "adicional", "más", "continuar", "ampliar"]),
   ("cultural", ["cultura", "español", "idioma", "lengua", "nativo"])]

/-- The hardcoded fallback palette of `_load_theme_colors` (lines 77–86),
used as `self.annotation_colors` when `themes.json` cannot be loaded. -/
def defaultAnnotationColors : List (String × (ℚ × ℚ × ℚ)) :=
  [("engagement", (1/10, 7/10, 2/10)),
   ("differentiation", (9/10, 5/10, 1/10)),
   ("assessment", (5/10, 1/10, 8/10)),
   ("improvement", (8/10, 1/10, 1/10)),
   ("strength", (1/10, 4/10, 8/10)),
   ("resource", (6/10, 6/10, 1/10)),
   ("extension", (8/10, 1/10, 6/10)),
   ("cultural", (1/10, 8/10, 6/10))]

/-- `_find_content_highlights` (lines 645–695): up to 2 content highlights for
an annotation, found by keyword match over the page's blocks. The document is
the per-page `get_text("dict")` geometry. -/
def find_content_highlights (doc : List TextBlocks)
    (colors : List (String × (ℚ × ℚ × ℚ))) (pageNum : Nat)
    (annotationType : String) : List ContentHighlight :=
  if doc.isEmpty || doc.length ≤ pageNum then []
  else
    let tb := (doc.drop pageNum).headD { blocks := none }
    let keywords := dictGet highlightKeywords annotationType []
    let highlights : List ContentHighlight :=
      match tb.blocks with
      | none => []
      | some blocks =>
        blocks.filterMap (fun b =>
          match b.lines, b.bbox with
          | some ls, some bbox =>
            let t := blockText ls
            if keywords.any (fun k => strContains t k) then
              some { x := bbox.x0
                     y := bbox.y0
                     width := bbox.x1 - bbox.x0
                     height := bbox.y1 - bbox.y0
                     textContent := pyTake t 100
                     highlightColor := dictGet colors annotationType (1, 1, 0)
                     annotationType := annotationType }
            else none
          | _, _ => none)
    highlights.take 2

/-- The placement loop of `_generate_page_annotations_distributed`
(lines 553–592): place boxes top-down from `currentY`, stopping when the
remaining vertical space drops below 45 units. -/
def placeLoop (doc : List TextBlocks) (colors : List (String × (ℚ × ℚ × ℚ)))
    (pageNum : Nat) (sections : List PageSection) (contentAreas : List ContentArea)
    (primary : WhiteSpace) (availableWidth availableHeight startY : ℚ) :
    List (String × String × Nat) → ℚ → List SmartAnnotationBox
  | [], _ => []
  | (annotationText, annType, priority) :: rest, currentY =>
    let remainingHeight := availableHeight - (currentY - startY)
    if remainingHeight < 45 then []
    else
      let size := calculate_optimal_box_size annotationText priority availableWidth remainingHeight
      let box : SmartAnnotationBox :=
        { x := primary.x + 5
          y := currentY
          width := size.1
          height := size.2
          text := annotationText
          annotationType := annType
          confidence := 1
          priority := priority
          contentRelevance := find_content_relevance annType sections
          color := dictGet colors annType (1/2, 1/2, 1/2)
          opacity := 17/20
          relatedHighlights := find_content_highlights doc colors pageNum annType
          targetContentArea := find_relevant_content_area annType sections contentAreas
          pageNum := pageNum }
      box :: placeLoop doc colors pageNum sections contentAreas primary
        availableWidth availableHeight startY rest (currentY + size.2 + 15)

/-- The best white space selected at line 546: stable ascending sort by
priority, first element (only meaningful for a non-empty list). -/
def primarySpace (whiteSpaces : List WhiteSpace) : WhiteSpace :=
  (pySort (fun a b => decide (b.priority < a.priority)) whiteSpaces).headD
    { wtype := "", x := 0, y := 0, width := 0, height := 0, priority := 0 }

/-- `_generate_page_annotations_distributed` (lines 535–594). -/
def generate_page_annotations_distributed (doc : List TextBlocks)
    (colors : List (String × (ℚ × ℚ × ℚ))) (pageNum : Nat) (layout : PageLayout)
    (pageAnnotationList : List (String × String × Nat)) : List SmartAnnotationBox :=
  if layout.whiteSpaces.isEmpty || pageAnnotationList.isEmpty then []
  else
    let primary := primarySpace layout.whiteSpaces
    let availableWidth := primary.width - 10
    let availableHeight := primary.height - 40
    let startY := primary.y + 20
    placeLoop doc colors pageNum layout.sectionBoundaries layout.contentAreas primary
      availableWidth availableHeight startY pageAnnotationList startY

/-- The flattening step of `_generate_smart_annotation_boxes` (lines 447–453):
high-priority insights first, then medium, then low, each entry carrying
`(text, category, priority-number)`. -/
def flatten_all_annotations (c : Categorized) : List (String × String × Nat) :=
  (c.highPriority.flatMap (fun p => p.2.map (fun t => (t, p.1, 1)))) ++
  (c.mediumPriority.flatMap (fun p => p.2.map (fun t => (t, p.1, 2)))) ++
  (c.lowPriority.flatMap (fun p => p.2.map (fun t => (t, p.1, 3))))

/-- `annotations_per_page` (line 456): `max(1, total // page_count)`. -/
def annotations_per_page (total pageCount : Nat) : Nat :=
  max 1 (total / pageCount)

/-- The page slice of lines 460–465: page `i` receives
`all_annotations[i*per : (i+1)*per]`, the last page receives the rest
(Python slices clamp out-of-range bounds). -/
def page_annotations_for (allAnnotations : List (String × String × Nat))
    (pageCount i : Nat) : List (String × String × Nat) :=
  let per := annotations_per_page allAnnotations.length pageCount
  let startIdx := i * per
  let endIdx := if i = pageCount - 1 then allAnnotations.length else startIdx + per
  (allAnnotations.drop startIdx).take (endIdx - startIdx)

/-- `_generate_smart_annotation_boxes` (lines 443–469). -/
def generate_smart_annotation_boxes (doc : List TextBlocks)
    (colors : List (String × (ℚ × ℚ × ℚ))) (layouts : List PageLayout)
    (c : Categorized) : List SmartAnnotationBox :=
  let allAnnotations := flatten_all_annotations c
  layouts.enum.flatMap (fun p =>
    generate_page_annotations_distributed doc colors p.1 p.2
      (page_annotations_for allAnnotations layouts.length p.1))

/-! ## OverlayRenderer: `_add_smart_text` (source lines 777–820) -/

/-- A `fitz.Rect`: `width = x1 - x0`, `height = y1 - y0`. -/
structure Rect where
  x0 : ℚ
  y0 : ℚ
  x1 : ℚ
  y1 : ℚ
deriving DecidableEq

/-- `fitz.Rect.width`. -/
def Rect.width (r : Rect) : ℚ := r.x1 - r.x0

/-- `fitz.Rect.height`. -/
def Rect.height (r : Rect) : ℚ := r.y1 - r.y0

/-- One `page.insert_text` draw operation issued by the renderer:
the insertion point, the drawn string, the font size and the font name. -/
structure TextOp where
  x : ℚ
  y : ℚ
  text : String
  fontsize : ℚ
  fontname : String
deriving DecidableEq

/-- The truncation of lines 796: `lines[i-1][:-3] + "..."` when the previous
line has more than 3 characters, else `"..."`. -/
def truncateWithEllipsis (s : String) : String :=
  if 3 < s.length then pyTake s (s.length - 3) ++ "..." else "..."

/-- The rendering loop of `_add_smart_text` (lines 792–820) as a pure list of
draw operations: `i` is the line index, `yOff` the running `y_offset`
(starting at 8), `prev` the previously drawn line (`lines[i-1]`). When a line
no longer fits, the previous line is redrawn truncated with an ellipsis (when
at least one line was drawn) and rendering stops. -/
def addSmartTextLoop (rect : Rect) (fontSize : ℚ) :
    List String → Nat → ℚ → Option String → List TextOp
  | [], _, _, _ => []
  | line :: rest, i, yOff, prev =>
    let lineHeight := fontSize + 3
    if rect.height - 8 < yOff + lineHeight then
      if 0 < i then
        [{ x := rect.x0 + 6
           y := rect.y0 + (yOff - lineHeight) + lineHeight
           text := truncateWithEllipsis (prev.getD "")
           fontsize := fontSize
           fontname := "helv" }]
      else []
    else
      { x := rect.x0 + 6
        y := rect.y0 + yOff + lineHeight
        text := line
        fontsize := fontSize
        fontname := if i = 0 then "hebo" else "helv" } ::
      addSmartTextLoop rect fontSize rest (i + 1) (yOff + lineHeight) (some line)

/-- `_add_smart_text` (lines 777–820): wrap the text against the rectangle's
inner width and emit the draw operations of the rendering loop. -/
def add_smart_text (text : String) (rect : Rect) (priority : Nat) : List TextOp :=
  let fontSize := fontSizeFor priority
  let maxWidth := rect.width - 12
  let dims := calculate_text_dimensions text fontSize maxWidth
  addSmartTextLoop rect fontSize dims.2.2 0 8 none

/-! ## `create_smart_overlay_pdf` (source lines 88–127): exception flow -/

/-- The fallible collaborator calls performed inside the `try` block of
`create_smart_overlay_pdf`, in order: `fitz.open`, `_analyze_page_layouts`,
`_categorize_annotations`, `_generate_smart_annotation_boxes`,
`_apply_smart_annotations`, `doc.save`. Each either returns or raises. -/
structure OverlaySteps where
  openStep : Except String Unit
  analyzeStep : Except String Unit
  categorizeStep : Except String Unit
  generateStep : Except String Unit
  applyStep : Except String Unit
  saveStep : Except String Unit

/-- Whether every step of the pipeline succeeds. -/
def overlayAllOk (st : OverlaySteps) : Bool :=
  st.openStep.isOk && st.analyzeStep.isOk && st.categorizeStep.isOk &&
  st.generateStep.isOk && st.applyStep.isOk && st.saveStep.isOk

/-- `create_smart_overlay_pdf` (lines 88–127). Inputs: the step outcomes, the
optional `output_filename` argument and the timestamp used for the generated
default name. Output: the returned value (filename on success, `None` on any
caught exception) paired with whether the document handle is still open at
exit. Mirrors the `try/except` structure: any raising step is caught, the
handle is closed (`if self.doc: self.doc.close()` — `self.doc` is still `None`
when `fitz.open` itself raised), and `None` is returned. -/
def create_smart_overlay_pdf (st : OverlaySteps) (outputFilename : Option String)
    (timestamp : String) : Option String × Bool :=
  let name :=
    match outputFilename with
    | some n => n
    | none => "smart_overlay_" ++ timestamp ++ ".pdf"
  match st.openStep with
  | .error _ => (none, false)
  | .ok _ =>
    match st.analyzeStep with
    | .error _ => (none, false)
    | .ok _ =>
      match st.categorizeStep with
      | .error _ => (none, false)
      | .ok _ =>
        match st.generateStep with
        | .error _ => (none, false)
        | .ok _ =>
          match st.applyStep with
          | .error _ => (none, false)
          | .ok _ =>
            match st.saveStep with
            | .error _ => (none, false)
            | .ok _ => (some name, false)

/-! ## Spec-side decomposition of the extraction step (for the refinement
statement of claim C5) -/

/-- Modelled from the amended claim's wording: the per-line retention rule of
the extraction step. Intro/connecting sentences are skipped; a bullet line is
cleaned of decoration, the portion after a colon is preferred when it is at
most 60 characters (else the portion before), and the result is kept only
when strictly longer than 10 characters; a non-bullet line longer than 20
characters, not ending in a colon and containing no `**` is kept after
`*`-stripping regardless of its cleaned-up length. -/
def keepLine (line : String) : Option String :=
  if startsWithAny line introPrefixes then none
  else if startsWithAny line bulletPrefixes then
    let cleanLine := cleanDecorations line
    let cleanLine2 :=
      if strContains cleanLine ":" then
        let mainConcept := pyStrip (beforeFirstColon cleanLine)
        let detail := pyStrip (afterFirstColon cleanLine)
        if detail.length ≤ 60 then detail else mainConcept
      else cleanLine
    if !(cleanLine2 == "") && 10 < cleanLine2.length then some cleanLine2 else none
  else if 20 < line.length && !(pyEndsWith line ":") && !(strContains line "**") then
    some (pyStrip (removeChar '*' line))
  else none

/-- Modelled from the amended claim's wording: the section scan alone —
the stripped, non-empty body lines of the target sections, in order, stopping
at the first exit header reached while inside a section. -/
def collectLoop (sectionNames : List String) : List String → Bool → List String
  | [], _ => []
  | l :: rest, inSection =>
    let line := pyStrip l
    if isSectionHeaderLine sectionNames line then
      collectLoop sectionNames rest true
    else if inSection && isExitHeaderLine sectionNames line then
      []
    else if inSection && !(line == "") then
      line :: collectLoop sectionNames rest inSection
    else
      collectLoop sectionNames rest inSection

/-! ## Concrete instances used by witnesses and counterexamples -/

/-- A US-letter-sized page rectangle. -/
def cRect : PageRect := ⟨612, 792⟩

/-- A page whose single text block nearly fills the page, so that no margin
region qualifies. -/
def cTbFull : TextBlocks :=
  { blocks := some [{ bbox := some ⟨5, 5, 607, 787⟩, lines := some [] }] }

/-- A page whose single block leaves a right margin of 90 units, producing a
qualifying `right_margin` white space of width exactly 150. -/
def cTbNarrow : TextBlocks :=
  { blocks := some [{ bbox := some ⟨10, 5, 512, 790⟩, lines := some [] }] }

/-- The analyzed layout of the `cTbNarrow` page. -/
def cLayoutNarrow : PageLayout :=
  (analyze_page_layouts [(cRect, cTbNarrow)]).headD
    ⟨0, ⟨0, 0⟩, [], ⟨0, 0, 0, 0⟩, [], [], 0⟩

/-- The boxes the planner emits for one insight on the `cTbNarrow` page. -/
def cBoxesNarrow : List SmartAnnotationBox :=
  generate_page_annotations_distributed [cTbNarrow] defaultAnnotationColors 0
    cLayoutNarrow [("hello world", "engagement", 1)]

/-- A page whose single block leaves a right margin of 190 units, producing a
qualifying `right_margin` white space of width 160. -/
def cTbWide : TextBlocks :=
  { blocks := some [{ bbox := some ⟨10, 5, 412, 790⟩, lines := some [] }] }

/-- The analyzed layout of the `cTbWide` page. -/
def cLayoutWide : PageLayout :=
  (analyze_page_layouts [(cRect, cTbWide)]).headD
    ⟨0, ⟨0, 0⟩, [], ⟨0, 0, 0, 0⟩, [], [], 0⟩

/-- The boxes the planner emits for one insight on the `cTbWide` page. -/
def cBoxesWide : List SmartAnnotationBox :=
  generate_page_annotations_distributed [cTbWide] defaultAnnotationColors 0
    cLayoutWide [("hello world", "engagement", 1)]

/-- A categorization holding a single high-priority insight. -/
def cOneInsight : Categorized :=
  { highPriority := [("engagement", ["Add a vocabulary warm-up game"])]
    mediumPriority := []
    lowPriority := [] }

/-- A default `TextOp` (used only with `List.getLastD`). -/
def cDefaultOp : TextOp := ⟨0, 0, "", 0, ""⟩

/-! ## Helper lemmas about the string primitives -/

theorem str_append_assoc (a b c : String) : a ++ b ++ c = a ++ (b ++ c) := by
  cases a; cases b; cases c
  apply congrArg String.mk
  exact List.append_assoc ..

theorem str_empty_append (a : String) : "" ++ a = a := by
  cases a
  apply congrArg String.mk
  exact List.nil_append _

theorem str_length_append (a b : String) : (a ++ b).length = a.length + b.length :=
  String.length_append a b

theorem str_ne_empty_append (a b : String) (h : a ≠ "") : a ++ b ≠ "" := by
  intro hab
  apply h
  cases a with
  | mk da =>
    cases b with
    | mk db =>
      have : da ++ db = [] := congrArg String.data hab
      rcases List.append_eq_nil.mp this with ⟨h1, _⟩
      exact congrArg String.mk h1

theorem stripData_sub (l : List Char) : stripData l <:+: l := by
  unfold stripData
  have h1 : l.dropWhile pyIsWs <:+ l := List.dropWhile_suffix pyIsWs
  refine List.IsInfix.trans ?_ h1.isInfix
  generalize l.dropWhile pyIsWs = m
  have h2 : m.reverse.dropWhile pyIsWs <:+ m.reverse := List.dropWhile_suffix pyIsWs
  have h3 : (m.reverse.dropWhile pyIsWs).reverse <+: m := by
    conv_rhs => rw [← List.reverse_reverse m]
    exact List.reverse_prefix.mpr h2
  exact h3.isInfix

theorem pyStrip_data_sub (s : String) : (pyStrip s).data <:+: s.data :=
  stripData_sub s.data

theorem removeChar_data_sub (c : Char) (s t : String)
    (h : s.data <:+: t.data) : (removeChar c s).data <:+: (removeChar c t).data :=
  h.filter _

theorem cleanDecorations_data_sub (s : String) :
    (cleanDecorations s).data <:+:
      (removeChar '•' (removeChar '-' (removeChar '#' (removeChar '*' s)))).data :=
  pyStrip_data_sub _

theorem beforeFirstColon_data_sub (s : String) :
    (beforeFirstColon s).data <:+: s.data :=
  (List.takeWhile_prefix _).isInfix

theorem afterFirstColon_data_sub (s : String) :
    (afterFirstColon s).data <:+: s.data :=
  ((List.tail_suffix _).trans (List.dropWhile_suffix _)).isInfix

theorem splitOnP_head_pre (p : Char → Bool) :
    ∀ (l hd : List Char) (tl : List (List Char)),
      splitOnP p l = hd :: tl → hd <+: l := by
  intro l
  induction l with
  | nil =>
    intro hd tl h
    simp only [splitOnP] at h
    cases h
    exact List.nil_prefix
  | cons c rest ih =>
    intro hd tl h
    simp only [splitOnP] at h
    by_cases hc : p c
    · rw [if_pos hc] at h
      cases h
      exact List.nil_prefix
    · rw [if_neg hc] at h
      rcases hsp : splitOnP p rest with _ | ⟨hd2, tl2⟩
      · rw [hsp] at h
        cases h
        exact ⟨rest, rfl⟩
      · rw [hsp] at h
        rcases ih hd2 tl2 hsp with ⟨t, ht⟩
        cases h
        exact ⟨t, by rw [List.cons_append, ht]⟩

theorem splitOnP_mem_sub (p : Char → Bool) :
    ∀ (l piece : List Char), piece ∈ splitOnP p l → piece <:+: l := by
  intro l
  induction l with
  | nil =>
    intro piece h
    simp only [splitOnP, List.mem_singleton] at h
    subst h
    exact List.infix_rfl
  | cons c rest ih =>
    intro piece h
    simp only [splitOnP] at h
    by_cases hc : p c
    · rw [if_pos hc] at h
      rcases List.mem_cons.mp h with h1 | h2
      · subst h1; exact List.nil_infix
      · exact (ih piece h2).trans (List.infix_cons (List.infix_rfl))
    · rw [if_neg hc] at h
      rcases hsp : splitOnP p rest with _ | ⟨hd, tl⟩
      · rw [hsp] at h
        simp only [List.mem_singleton] at h
        subst h
        exact ⟨[], rest, rfl⟩
      · rw [hsp] at h
        rcases List.mem_cons.mp h with h1 | h2
        · subst h1
          rcases splitOnP_head_pre p rest hd tl hsp with ⟨t, ht⟩
          have hp : (c :: hd) <+: (c :: rest) := ⟨t, by rw [List.cons_append, ht]⟩
          exact hp.isInfix
        · exact (ih piece (by rw [hsp]; exact List.mem_cons_of_mem _ h2)).trans
            (List.infix_cons List.infix_rfl)

theorem pyLines_mem_data_sub (text l : String) (h : l ∈ pyLines text) :
    l.data <:+: text.data := by
  unfold pyLines at h
  rcases List.mem_map.mp h with ⟨piece, hmem, heq⟩
  subst heq
  exact splitOnP_mem_sub _ _ _ hmem

/-- The fallback branch of an `if isEmpty` keeps the list non-empty whenever
the fallback itself is non-empty. -/
theorem ite_isEmpty_length {α : Type} (ws fb : List α) (h : 1 ≤ fb.length) :
    1 ≤ (if ws.isEmpty then fb else ws).length := by
  cases ws with
  | nil => simpa using h
  | cons a t => simp

/-- C1: for every page geometry (any page size and any set of text blocks,
including none) the white-space list is non-empty; when no right/left/top
margin region qualifies under the thresholds, the result is exactly the
synthesized fallback: a `right_overlay` with `x = page_width - 200` and width
180, plus a `left_overlay` when the page is wider than 500. -/
theorem C1_white_spaces_never_empty (pageRect : PageRect) (tb : TextBlocks) :
    1 ≤ (find_white_spaces pageRect tb).length ∧
    ((calculate_margins pageRect tb).right ≤ 60 →
     (calculate_margins pageRect tb).left ≤ 60 →
     (calculate_margins pageRect tb).top ≤ 40 →
      find_white_spaces pageRect tb =
        [{ wtype := "right_overlay", x := pageRect.width - 200, y := 80, width := 180,
           height := pageRect.height - 160, priority := 1 }] ++
        (if 500 < pageRect.width then
          [{ wtype := "left_overlay", x := 20, y := 80, width := 180,
             height := pageRect.height - 160, priority := 2 }]
         else [])) := by
  constructor
  · unfold find_white_spaces
    apply ite_isEmpty_length
    simp
  · intro h1 h2 h3
    simp only [find_white_spaces]
    rw [if_neg (not_lt.mpr h1), if_neg (not_lt.mpr h2), if_neg (not_lt.mpr h3)]
    simp

/-- Witness for C1 at a page whose single block nearly fills it: every margin
is at its 20-unit floor, so the fallback regions (two of them, the page being
612 > 500 wide) are synthesized. -/
theorem C1_white_spaces_never_empty_witness :
    find_white_spaces cRect cTbFull =
      [{ wtype := "right_overlay", x := (612 : ℚ) - 200, y := 80, width := 180,
         height := (792 : ℚ) - 160, priority := 1 }] ++
      (if (500 : ℚ) < (612 : ℚ) then
        [{ wtype := "left_overlay", x := 20, y := 80, width := 180,
           height := (792 : ℚ) - 160, priority := 2 }]
       else []) :=
  (C1_white_spaces_never_empty cRect cTbFull).2 (by decide) (by decide) (by decide)

/-- C7 (amended): for a page whose geometry dict lacks the `"blocks"` entry
(unparseable), the analyzer yields default margins of 50 on all sides; for a
page whose block list is present but empty, the margins instead degenerate to
`max 20 (dimension - 10)`; in both cases content areas and sections are empty
and text density is 0, and all four analysis functions are total (they never
raise). -/
theorem C7_empty_geometry_degrades (pageRect : PageRect) :
    calculate_margins pageRect { blocks := none } =
      { left := 50, right := 50, top := 50, bottom := 50 } ∧
    calculate_margins pageRect { blocks := some [] } =
      { left := max 20 (pageRect.width - 10), right := max 20 (pageRect.width - 10),
        top := max 20 (pageRect.height - 10), bottom := max 20 (pageRect.height - 10) } ∧
    identify_content_areas { blocks := none } = [] ∧
    identify_content_areas { blocks := some [] } = [] ∧
    identify_sections { blocks := none } = [] ∧
    identify_sections { blocks := some [] } = [] ∧
    calculate_text_density { blocks := none } pageRect = 0 ∧
    calculate_text_density { blocks := some [] } pageRect = 0 := by
  refine ⟨rfl, ?_, rfl, rfl, rfl, rfl, rfl, ?_⟩
  · unfold calculate_margins marginExtents
    simp
  · unfold calculate_text_density
    simp only [List.foldl_nil]
    split <;> simp

/-- Counterexample to C7 as stated: on a 612×792 page whose geometry has an
empty block list ("no text blocks"), the computed left margin is 602, not the
claimed default of 50. -/
theorem C7_empty_blocks_margin_not_50 :
    (calculate_margins ⟨612, 792⟩ { blocks := some [] }).left = 602 ∧
    ((602 : ℚ) = 50 → False) := by
  constructor
  · decide
  · intro h
    exact absurd h (by norm_num)

/-- C9: the top-level overlay creation catches every internal exception: it
returns the resolved output filename exactly when every pipeline step
succeeds and `None` otherwise, and the document handle is never left open
(the `except` branch closes it when `fitz.open` had succeeded; when
`fitz.open` itself raised, no handle was opened). -/
theorem C9_create_smart_overlay_pdf_total (st : OverlaySteps)
    (outputFilename : Option String) (timestamp : String) :
    create_smart_overlay_pdf st outputFilename timestamp =
      (if overlayAllOk st then
        some (outputFilename.getD ("smart_overlay_" ++ timestamp ++ ".pdf"))
       else none, false) := by
  obtain ⟨o, a, c, g, ap, s⟩ := st
  cases o <;> cases a <;> cases c <;> cases g <;> cases ap <;> cases s <;>
    cases outputFilename <;>
    simp [create_smart_overlay_pdf, overlayAllOk, Except.isOk, Except.toBool, Option.getD]

/-- Counterexample to C3 as stated: with a single flattened insight and 3
pages, `per_page = max(1, 1 // 3) = 1`, yet the non-last page 1 is assigned 0
insights, not `per_page`. -/
theorem C3_page_assigned_less_than_per_page :
    annotations_per_page (flatten_all_annotations cOneInsight).length 3 = 1 ∧
    (page_annotations_for (flatten_all_annotations cOneInsight) 3 1).length = 0 := by
  decide

/-- C3 (amended): for every flattened insight list and page count `n ≥ 1`
(the distribution is independent of insight priorities): a non-last page `i`
is assigned `min(per_page, total - i*per_page)` insights — which equals
`per_page` exactly whenever `total ≥ n` — the last page absorbs the remainder
`total - (n-1)*per_page`, and any two non-last pages' assigned counts differ
by at most 1. -/
theorem C3_distribution_fairness (allAnnotations : List (String × String × Nat))
    (n : Nat) (hn : 1 ≤ n) :
    (∀ i, i < n - 1 →
      (page_annotations_for allAnnotations n i).length =
        min (annotations_per_page allAnnotations.length n)
          (allAnnotations.length - i * annotations_per_page allAnnotations.length n)) ∧
    (page_annotations_for allAnnotations n (n - 1)).length =
      allAnnotations.length - (n - 1) * annotations_per_page allAnnotations.length n ∧
    (n ≤ allAnnotations.length → ∀ i, i < n - 1 →
      (page_annotations_for allAnnotations n i).length =
        annotations_per_page allAnnotations.length n) ∧
    (∀ i j, i < n - 1 → j < n - 1 →
      (page_annotations_for allAnnotations n i).length ≤
        (page_annotations_for allAnnotations n j).length + 1) := by
  set total := allAnnotations.length with htotal
  set per := annotations_per_page total n with hper
  have hlen : ∀ i, i < n - 1 →
      (page_annotations_for allAnnotations n i).length = min per (total - i * per) := by
    intro i hi
    have hne : i ≠ n - 1 := Nat.ne_of_lt hi
    simp [page_annotations_for, hne, List.length_take, List.length_drop, ← hper,
      Nat.add_sub_cancel_left, ← htotal]
  have hfull : n ≤ total → ∀ i, i < n - 1 →
      (page_annotations_for allAnnotations n i).length = per := by
    intro hc i hi
    rw [hlen i hi]
    have hdiv : 1 ≤ total / n := (Nat.one_le_div_iff (by omega)).mpr hc
    have hpereq : per = total / n := by
      rw [hper]
      unfold annotations_per_page
      omega
    have hmul : n * per ≤ total := by
      rw [hpereq, Nat.mul_comm]
      exact Nat.div_mul_le_self total n
    have hsucc : (i + 1) * per = i * per + per := Nat.succ_mul i per
    have h1 : (i + 1) * per ≤ n * per := Nat.mul_le_mul_right per (by omega)
    omega
  refine ⟨hlen, ?_, hfull, ?_⟩
  · simp [page_annotations_for, List.length_take, List.length_drop, ← hper, ← htotal]
  · intro i j hi hj
    by_cases hc : n ≤ total
    · rw [hfull hc i hi, hfull hc j hj]
      omega
    · have hdiv0 : total / n = 0 := Nat.div_eq_of_lt (by omega)
      have hper1 : per = 1 := by
        rw [hper]
        unfold annotations_per_page
        omega
      have h1 : (page_annotations_for allAnnotations n i).length ≤ per := by
        rw [hlen i hi]; exact Nat.min_le_left _ _
      omega

/-- Witness for C3 (amended) at one insight over three pages: the two
non-last pages' assigned counts differ by at most 1. -/
theorem C3_distribution_fairness_witness :
    (page_annotations_for (flatten_all_annotations cOneInsight) 3 1).length ≤
      (page_annotations_for (flatten_all_annotations cOneInsight) 3 0).length + 1 :=
  (C3_distribution_fairness (flatten_all_annotations cOneInsight) 3 (by decide)).2.2.2
    1 0 (by decide) (by decide)

/-- Joining after prepending `a ++ " " ++ b` agrees with prepending `a`. -/
theorem joinSp_glue (a b : String) (ws : List String) :
    joinSp ((a ++ " " ++ b) :: ws) = a ++ " " ++ joinSp (b :: ws) := by
  cases ws with
  | nil => rfl
  | cons v vs =>
    show (a ++ " " ++ b) ++ " " ++ joinSp (v :: vs) = a ++ " " ++ (b ++ " " ++ joinSp (v :: vs))
    simp only [str_append_assoc]

/-- Two empty prepends vanish. -/
theorem empty_sep_append (w : String) : "" ++ "" ++ w = w := by
  rw [str_append_assoc, str_empty_append, str_empty_append]

/-- Unfolding the wrap loop on an empty word list and non-empty current
line. -/
theorem wrapLoop_nil_ne (mc : ℤ) (cur : String) (hcur : cur ≠ "") :
    wrapLoop mc [] cur = [cur] := by
  have h1 : (cur == "") = false := beq_eq_false_iff_ne.mpr hcur
  simp only [wrapLoop, h1]
  simp

/-- Unfolding one step of the wrap loop on a non-empty current line. -/
theorem wrapLoop_cons_ne (mc : ℤ) (w : String) (rest : List String) (cur : String)
    (hcur : cur ≠ "") :
    wrapLoop mc (w :: rest) cur =
      if ((cur ++ " " ++ w).length : ℤ) ≤ mc then wrapLoop mc rest (cur ++ " " ++ w)
      else [cur] ++ wrapLoop mc rest w := by
  have h1 : (cur == "") = false := beq_eq_false_iff_ne.mpr hcur
  simp only [wrapLoop, h1]
  simp

/-- Unfolding the first step of the wrap loop on an empty current line. -/
theorem wrapLoop_start (mc : ℤ) (w : String) (ws : List String) :
    wrapLoop mc (w :: ws) "" = wrapLoop mc ws w := by
  simp only [wrapLoop]
  rw [if_pos (by simp)]
  rw [show ("" ++ (if !("" == "") then " " else "") ++ w) = w by simp [empty_sep_append]]

/-- The wrap loop started on a non-empty current line never returns an empty
line list. -/
theorem wrapLoop_ne_nil (mc : ℤ) :
    ∀ (ws : List String) (cur : String), cur ≠ "" → wrapLoop mc ws cur ≠ [] := by
  intro ws
  induction ws with
  | nil =>
    intro cur hcur
    rw [wrapLoop_nil_ne mc cur hcur]
    simp
  | cons w rest ih =>
    intro cur hcur
    rw [wrapLoop_cons_ne mc w rest cur hcur]
    by_cases hle : ((cur ++ " " ++ w).length : ℤ) ≤ mc
    · rw [if_pos hle]
      exact ih _ (str_ne_empty_append _ _ (str_ne_empty_append _ _ hcur))
    · rw [if_neg hle]
      simp

/-- The wrap loop never splits or reorders words: joining its lines with
single spaces reproduces the joined input words. -/
theorem wrapLoop_join (mc : ℤ) :
    ∀ (ws : List String) (cur : String), cur ≠ "" → (∀ v ∈ ws, v ≠ "") →
      joinSp (wrapLoop mc ws cur) = joinSp (cur :: ws) := by
  intro ws
  induction ws with
  | nil =>
    intro cur hcur _
    rw [wrapLoop_nil_ne mc cur hcur]
  | cons w rest ih =>
    intro cur hcur hws
    have hw : w ≠ "" := hws w (List.mem_cons_self w rest)
    have hrest : ∀ v ∈ rest, v ≠ "" := fun v hv => hws v (List.mem_cons_of_mem _ hv)
    rw [wrapLoop_cons_ne mc w rest cur hcur]
    by_cases hle : ((cur ++ " " ++ w).length : ℤ) ≤ mc
    · rw [if_pos hle, ih (cur ++ " " ++ w) (str_ne_empty_append _ _ (str_ne_empty_append _ _ hcur)) hrest, joinSp_glue]
      rfl
    · rw [if_neg hle]
      have hT := ih w hw hrest
      rcases hL : wrapLoop mc rest w with _ | ⟨l0, ls⟩
      · exact absurd hL (wrapLoop_ne_nil mc rest w hw)
      · rw [hL] at hT
        show joinSp (cur :: l0 :: ls) = joinSp (cur :: w :: rest)
        show cur ++ " " ++ joinSp (l0 :: ls) = cur ++ " " ++ joinSp (w :: rest)
        rw [hT]

/-- A current line longer than the character budget is emitted as its own
line. -/
theorem wrapLoop_long_self (mc : ℤ) :
    ∀ (ws : List String) (cur : String), cur ≠ "" → mc < (cur.length : ℤ) →
      cur ∈ wrapLoop mc ws cur := by
  intro ws
  induction ws with
  | nil =>
    intro cur hcur _
    rw [wrapLoop_nil_ne mc cur hcur]
    simp
  | cons w rest ih =>
    intro cur hcur hlong
    rw [wrapLoop_cons_ne mc w rest cur hcur]
    have hlen : ¬ ((cur ++ " " ++ w).length : ℤ) ≤ mc := by
      rw [str_length_append, str_length_append]
      push_cast
      omega
    rw [if_neg hlen]
    exact List.mem_append_left _ (List.mem_singleton.mpr rfl)

/-- Every word longer than the character budget appears unsplit as one of the
wrapped lines. -/
theorem wrapLoop_long_mem (mc : ℤ) :
    ∀ (ws : List String) (cur w : String), w ∈ ws → (∀ v ∈ ws, v ≠ "") →
      mc < (w.length : ℤ) → w ∈ wrapLoop mc ws cur := by
  intro ws
  induction ws with
  | nil =>
    intro cur w hmem
    exact absurd hmem (List.not_mem_nil w)
  | cons v rest ih =>
    intro cur w hmem hws hlong
    have hv : v ≠ "" := hws v (List.mem_cons_self v rest)
    have hrest : ∀ u ∈ rest, u ≠ "" := fun u hu => hws u (List.mem_cons_of_mem _ hu)
    by_cases hcur : cur = ""
    · subst hcur
      rw [wrapLoop_start]
      rcases List.mem_cons.mp hmem with heq | htail
      · subst heq
        exact wrapLoop_long_self mc rest w hv hlong
      · exact ih v w htail hrest hlong
    · rw [wrapLoop_cons_ne mc v rest cur hcur]
      rcases List.mem_cons.mp hmem with heq | htail
      · subst heq
        have hlen : ¬ ((cur ++ " " ++ w).length : ℤ) ≤ mc := by
          rw [str_length_append, str_length_append]
          push_cast
          omega
        rw [if_neg hlen]
        exact List.mem_append_right _ (wrapLoop_long_self mc rest w hv hlong)
      · by_cases hle : ((cur ++ " " ++ v).length : ℤ) ≤ mc
        · rw [if_pos hle]
          exact ih _ w htail hrest hlong
        · rw [if_neg hle]
          exact List.mem_append_right _ (ih v w htail hrest hlong)

/-- Words produced by `pySplitWs` are never empty. -/
theorem pySplitWs_mem_ne (s w : String) (h : w ∈ pySplitWs s) : w ≠ "" := by
  unfold pySplitWs at h
  have h2 := (List.mem_filter.mp h).2
  intro heq
  subst heq
  exact absurd h2 (by decide)

/-- Counterexample to C10 as stated: the whitespace-only text `" "` is
non-empty, yet the word-wrapper returns an empty line list (the claimed
"non-empty line list for every non-empty text" fails; `text.split()` drops
whitespace-only content entirely). -/
theorem C10_blank_text_no_lines :
    (" " : String) ≠ "" ∧ (calculate_text_dimensions " " 10 120).2.2 = [] := by
  constructor
  · decide
  · decide

/-- C10 (amended): in the word-wrapping computation, (i) the returned width is
capped at `max_width` for every input; (ii) for every text containing at
least one word (at least one non-whitespace character) the returned line list
is non-empty and concatenating the lines with single spaces reproduces the
space-normalized input text; and (iii) every single word longer than the
computed `max_chars_per_line` budget is still placed unsplit as a whole line
of its own, so a wrapped line can exceed `max_chars_per_line`. -/
theorem C10_text_dimensions_wrap (text : String) (fontSize maxWidth : ℚ) :
    (calculate_text_dimensions text fontSize maxWidth).1 ≤ maxWidth ∧
    (pySplitWs text ≠ [] →
      (calculate_text_dimensions text fontSize maxWidth).2.2 ≠ [] ∧
      joinSp (calculate_text_dimensions text fontSize maxWidth).2.2 =
        joinSp (pySplitWs text)) ∧
    (∀ w ∈ pySplitWs text,
      pyInt (maxWidth / (fontSize * (1/2))) < (w.length : ℤ) →
      w ∈ (calculate_text_dimensions text fontSize maxWidth).2.2) := by
  refine ⟨?_, ?_, ?_⟩
  · simp only [calculate_text_dimensions]
    exact min_le_left _ _
  · intro hne
    simp only [calculate_text_dimensions]
    rcases hws : pySplitWs text with _ | ⟨w, ws⟩
    · exact absurd hws hne
    · have hw : w ≠ "" := pySplitWs_mem_ne text w (by rw [hws]; exact List.mem_cons_self w ws)
      have hrest : ∀ v ∈ ws, v ≠ "" := fun v hv =>
        pySplitWs_mem_ne text v (by rw [hws]; exact List.mem_cons_of_mem _ hv)
      rw [wrapLoop_start]
      exact ⟨wrapLoop_ne_nil _ ws w hw, wrapLoop_join _ ws w hw hrest⟩
  · intro w hmem hlong
    simp only [calculate_text_dimensions]
    exact wrapLoop_long_mem _ (pySplitWs text) "" w hmem
      (fun v hv => pySplitWs_mem_ne text v hv) hlong

/-- Witness for C10 (amended): one 16-character word against a 4-character
budget (`max_width` 20 at font size 10) is kept whole as its own line. -/
theorem C10_text_dimensions_wrap_witness :
    "abcdefghijklmnop" ∈ (calculate_text_dimensions "abcdefghijklmnop" 10 20).2.2 :=
  (C10_text_dimensions_wrap "abcdefghijklmnop" 10 20).2.2 "abcdefghijklmnop"
    (by decide) (by decide)

/-- Size clamping of `_calculate_optimal_box_size`: the final width/height
respect the 150/50 minimums and the available-space caps. -/
theorem calculate_optimal_box_size_bounds (text : String) (priority : Nat)
    (aw ah : ℚ) :
    150 ≤ (calculate_optimal_box_size text priority aw ah).1 ∧
    (calculate_optimal_box_size text priority aw ah).1 ≤ max 150 (min (aw - 20) 300) ∧
    50 ≤ (calculate_optimal_box_size text priority aw ah).2 ∧
    (calculate_optimal_box_size text priority aw ah).2 ≤ max 50 (min (ah * (9/10)) 400) := by
  simp only [calculate_optimal_box_size]
  exact ⟨le_max_left _ _, max_le_max (le_refl _) (min_le_right _ _),
         le_max_left _ _, max_le_max (le_refl _) (min_le_right _ _)⟩

/-- Every box placed by the placement loop (started at or below the region's
start line) has the clamped size, sits 5 units right of the region's left
edge, and its vertical extent stays inside the region with margin 15. -/
theorem placeLoop_mem_bounds (doc : List TextBlocks)
    (colors : List (String × (ℚ × ℚ × ℚ))) (pageNum : Nat)
    (sections : List PageSection) (contentAreas : List ContentArea)
    (primary : WhiteSpace) :
    ∀ (anns : List (String × String × Nat)) (cy : ℚ), primary.y + 20 ≤ cy →
      ∀ b ∈ placeLoop doc colors pageNum sections contentAreas primary
          (primary.width - 10) (primary.height - 40) (primary.y + 20) anns cy,
        150 ≤ b.width ∧ 50 ≤ b.height ∧ b.x = primary.x + 5 ∧
        primary.y + 20 ≤ b.y ∧
        b.y + b.height ≤ primary.y + primary.height - 15 ∧
        b.width ≤ max 150 (primary.width - 30) := by
  intro anns
  induction anns with
  | nil =>
    intro cy hcy b hb
    exact absurd hb (List.not_mem_nil b)
  | cons a rest ih =>
    obtain ⟨t, ty, pr⟩ := a
    intro cy hcy b hb
    simp only [placeLoop] at hb
    by_cases hrem : primary.height - 40 - (cy - (primary.y + 20)) < 45
    · rw [if_pos hrem] at hb
      exact absurd hb (List.not_mem_nil b)
    · rw [if_neg hrem] at hb
      have hsize := calculate_optimal_box_size_bounds t pr (primary.width - 10)
        (primary.height - 40 - (cy - (primary.y + 20)))
      rcases List.mem_cons.mp hb with rfl | htail
      · refine ⟨hsize.1, hsize.2.2.1, rfl, hcy, ?_, ?_⟩
        · have h1 : min ((primary.height - 40 - (cy - (primary.y + 20))) * (9/10)) 400 ≤
              primary.height - 40 - (cy - (primary.y + 20)) := by
            refine le_trans (min_le_left _ _) ?_
            nlinarith [not_lt.mp hrem]
          have h2 := hsize.2.2.2
          have h3 : max (50:ℚ) (min ((primary.height - 40 - (cy - (primary.y + 20))) * (9/10)) 400) ≤
              primary.height - 40 - (cy - (primary.y + 20)) + 5 := by
            apply max_le
            · linarith [not_lt.mp hrem]
            · linarith
          show cy + _ ≤ _
          linarith
        · refine le_trans hsize.2.1 ?_
          apply max_le (le_max_left _ _)
          refine le_trans (min_le_left _ _) ?_
          apply le_max_of_le_right
          linarith
      · exact ih (cy + (calculate_optimal_box_size t pr (primary.width - 10)
            (primary.height - 40 - (cy - (primary.y + 20)))).2 + 15)
          (by linarith [hsize.2.2.1]) b htail

/-- Every box placed by the placement loop sits at or below the running
vertical cursor. -/
theorem placeLoop_y_lb (doc : List TextBlocks)
    (colors : List (String × (ℚ × ℚ × ℚ))) (pageNum : Nat)
    (sections : List PageSection) (contentAreas : List ContentArea)
    (primary : WhiteSpace) (aw ah sy : ℚ) :
    ∀ (anns : List (String × String × Nat)) (cy : ℚ),
      ∀ b ∈ placeLoop doc colors pageNum sections contentAreas primary
          aw ah sy anns cy, cy ≤ b.y := by
  intro anns
  induction anns with
  | nil =>
    intro cy b hb
    exact absurd hb (List.not_mem_nil b)
  | cons a rest ih =>
    obtain ⟨t, ty, pr⟩ := a
    intro cy b hb
    simp only [placeLoop] at hb
    by_cases hrem : ah - (cy - sy) < 45
    · rw [if_pos hrem] at hb
      exact absurd hb (List.not_mem_nil b)
    · rw [if_neg hrem] at hb
      rcases List.mem_cons.mp hb with rfl | htail
      · exact le_refl _
      · have hsize := calculate_optimal_box_size_bounds t pr aw (ah - (cy - sy))
        have := ih (cy + (calculate_optimal_box_size t pr aw (ah - (cy - sy))).2 + 15) b htail
        linarith [hsize.2.2.1]

/-- Boxes placed by the placement loop are pairwise separated: each later box
starts at least 15 units below an earlier box's bottom edge, and consecutive
boxes sit exactly one 15-unit gutter apart. -/
theorem placeLoop_separation (doc : List TextBlocks)
    (colors : List (String × (ℚ × ℚ × ℚ))) (pageNum : Nat)
    (sections : List PageSection) (contentAreas : List ContentArea)
    (primary : WhiteSpace) (aw ah sy : ℚ) :
    ∀ (anns : List (String × String × Nat)) (cy : ℚ),
      List.Pairwise (fun a b => a.y + a.height + 15 ≤ b.y)
        (placeLoop doc colors pageNum sections contentAreas primary aw ah sy anns cy) ∧
      List.Chain' (fun a b => b.y = a.y + a.height + 15)
        (placeLoop doc colors pageNum sections contentAreas primary aw ah sy anns cy) := by
  intro anns
  induction anns with
  | nil =>
    intro cy
    simp [placeLoop]
  | cons a rest ih =>
    obtain ⟨t, ty, pr⟩ := a
    intro cy
    simp only [placeLoop]
    by_cases hrem : ah - (cy - sy) < 45
    · rw [if_pos hrem]
      simp
    · rw [if_neg hrem]
      set h := (calculate_optimal_box_size t pr aw (ah - (cy - sy))).2 with hh
      constructor
      · apply List.Pairwise.cons
        · intro b hb
          have := placeLoop_y_lb doc colors pageNum sections contentAreas primary
            aw ah sy rest (cy + h + 15) b hb
          simpa using this
        · exact (ih (cy + h + 15)).1
      · apply List.chain'_cons'.mpr
        constructor
        · intro b hhead
          rcases hL : placeLoop doc colors pageNum sections contentAreas primary
              aw ah sy rest (cy + h + 15) with _ | ⟨b0, bs⟩
          · rw [hL] at hhead
            simp at hhead
          · rw [hL] at hhead
            simp only [List.head?_cons, Option.mem_def, Option.some.injEq] at hhead
            -- the head of the continued loop sits exactly at the new cursor
            have hy : b0.y = cy + h + 15 := by
              rcases rest with _ | ⟨a2, rest2⟩
              · simp [placeLoop] at hL
              · obtain ⟨t2, ty2, pr2⟩ := a2
                simp only [placeLoop] at hL
                by_cases hrem2 : ah - (cy + h + 15 - sy) < 45
                · rw [if_pos hrem2] at hL
                  cases hL
                · rw [if_neg hrem2] at hL
                  cases hL
                  rfl
            rw [← hhead]
            simpa using hy
        · exact (ih (cy + h + 15)).2

/-- C4: boxes placed on a page by the distributed placement never vertically
overlap — each box's closed y-interval ends strictly above the next box's
start (pairwise) — because each successive box is placed at the previous
box's bottom edge plus a 15-unit gutter (chain). -/
theorem C4_no_vertical_overlap (doc : List TextBlocks)
    (colors : List (String × (ℚ × ℚ × ℚ))) (pageNum : Nat)
    (layout : PageLayout) (anns : List (String × String × Nat)) :
    List.Pairwise (fun a b => a.y + a.height < b.y)
      (generate_page_annotations_distributed doc colors pageNum layout anns) ∧
    List.Chain' (fun a b => b.y = a.y + a.height + 15)
      (generate_page_annotations_distributed doc colors pageNum layout anns) := by
  unfold generate_page_annotations_distributed
  split
  · simp
  · have hsep := placeLoop_separation doc colors pageNum layout.sectionBoundaries
      layout.contentAreas (primarySpace layout.whiteSpaces)
      ((primarySpace layout.whiteSpaces).width - 10)
      ((primarySpace layout.whiteSpaces).height - 40)
      ((primarySpace layout.whiteSpaces).y + 20) anns
      ((primarySpace layout.whiteSpaces).y + 20)
    exact ⟨hsep.1.imp (fun h => by linarith), hsep.2⟩

/-- C2 (amended): every box emitted by the distributed placement has
`width ≥ 150` and `height ≥ 50`, sits at `x = region.x + 5`, and its vertical
extent lies inside the selected white-space region (with 15 units of slack at
the bottom); horizontally the box stays inside the region whenever the region
is at least 155 units wide (otherwise the 150-minimum width combined with the
5-unit inset overflows the region's right edge). -/
theorem C2_box_size_and_containment (doc : List TextBlocks)
    (colors : List (String × (ℚ × ℚ × ℚ))) (pageNum : Nat)
    (layout : PageLayout) (anns : List (String × String × Nat)) :
    ∀ b ∈ generate_page_annotations_distributed doc colors pageNum layout anns,
      150 ≤ b.width ∧ 50 ≤ b.height ∧
      b.x = (primarySpace layout.whiteSpaces).x + 5 ∧
      (primarySpace layout.whiteSpaces).y + 20 ≤ b.y ∧
      b.y + b.height ≤ (primarySpace layout.whiteSpaces).y +
        (primarySpace layout.whiteSpaces).height - 15 ∧
      (155 ≤ (primarySpace layout.whiteSpaces).width →
        b.x + b.width ≤ (primarySpace layout.whiteSpaces).x +
          (primarySpace layout.whiteSpaces).width) := by
  intro b hb
  unfold generate_page_annotations_distributed at hb
  split at hb
  · exact absurd hb (List.not_mem_nil b)
  · have hB := placeLoop_mem_bounds doc colors pageNum layout.sectionBoundaries
      layout.contentAreas (primarySpace layout.whiteSpaces) anns
      ((primarySpace layout.whiteSpaces).y + 20) (le_refl _) b hb
    refine ⟨hB.1, hB.2.1, hB.2.2.1, hB.2.2.2.1, hB.2.2.2.2.1, ?_⟩
    intro hwide
    have hw := hB.2.2.2.2.2
    have hcap : max (150:ℚ) ((primarySpace layout.whiteSpaces).width - 30) ≤
        (primarySpace layout.whiteSpaces).width - 5 :=
      max_le (by linarith) (by linarith)
    rw [hB.2.2.1]
    linarith

/-- Counterexample to C2 as stated: on a page whose right margin yields a
white-space region of width exactly 150, the single placed box (width 150 at
`x = region.x + 5`) extends 5 units past the region's right edge: the
region ends at 682 while the box ends at 687. -/
theorem C2_box_exceeds_region :
    (primarySpace cLayoutNarrow.whiteSpaces).width = 150 ∧
    (primarySpace cLayoutNarrow.whiteSpaces).x + (primarySpace cLayoutNarrow.whiteSpaces).width = 682 ∧
    (cBoxesNarrow.headD ⟨0, 0, 0, 0, "", "", 0, 0, "", (0, 0, 0), 0, [], none, 0⟩) ∈ cBoxesNarrow ∧
    (cBoxesNarrow.headD ⟨0, 0, 0, 0, "", "", 0, 0, "", (0, 0, 0), 0, [], none, 0⟩).x +
      (cBoxesNarrow.headD ⟨0, 0, 0, 0, "", "", 0, 0, "", (0, 0, 0), 0, [], none, 0⟩).width = 687 ∧
    (682 : ℚ) < 687 := by
  decide

/-- Witness for C2 (amended) on a page whose white-space region is 160 ≥ 155
units wide: the placed box stays inside the region horizontally. -/
theorem C2_box_size_and_containment_witness :
    (cBoxesWide.headD ⟨0, 0, 0, 0, "", "", 0, 0, "", (0, 0, 0), 0, [], none, 0⟩).x +
      (cBoxesWide.headD ⟨0, 0, 0, 0, "", "", 0, 0, "", (0, 0, 0), 0, [], none, 0⟩).width ≤
      (primarySpace cLayoutWide.whiteSpaces).x + (primarySpace cLayoutWide.whiteSpaces).width :=
  (C2_box_size_and_containment [cTbWide] defaultAnnotationColors 0 cLayoutWide
      [("hello world", "engagement", 1)]
      (cBoxesWide.headD ⟨0, 0, 0, 0, "", "", 0, 0, "", (0, 0, 0), 0, [], none, 0⟩)
      (by decide)).2.2.2.2.2 (by decide)

/-- The extraction loop equals the spec-shaped pipeline: collect the
in-section lines, then retain points line by line with `keepLine`. -/
theorem extractLoop_eq_filterMap (sectionNames : List String) :
    ∀ (lines : List String) (inSection : Bool) (points : List String),
      extractLoop sectionNames lines inSection points =
        points ++ (collectLoop sectionNames lines inSection).filterMap keepLine := by
  intro lines
  induction lines with
  | nil =>
    intro inSection points
    simp [extractLoop, collectLoop]
  | cons l rest ih =>
    intro inSection points
    simp only [extractLoop, collectLoop]
    by_cases h1 : isSectionHeaderLine sectionNames (pyStrip l)
    · rw [if_pos h1, if_pos h1]
      exact ih true points
    · rw [if_neg h1, if_neg h1]
      by_cases h2 : (inSection && isExitHeaderLine sectionNames (pyStrip l)) = true
      · rw [if_pos h2, if_pos h2]
        simp
      · rw [if_neg h2, if_neg h2]
        by_cases h3 : (inSection && !(pyStrip l == "")) = true
        · rw [if_pos h3, if_pos h3]
          rw [List.filterMap_cons]
          simp only [keepLine]
          split_ifs <;> simp [ih]
        · rw [if_neg h3, if_neg h3]
          exact ih inSection points

/-- C5 (amended): point extraction equals the three-stage pipeline — collect
the stripped non-empty in-section lines, retain per line by `keepLine`
(bullet lines: strip decoration, prefer the portion after the first colon
when it is at most 60 characters else the portion before, keep only when the
result is strictly longer than 10 characters, so a cleaned-up line of exactly
10 characters is dropped; standalone lines longer than 20 characters not
ending in a colon and free of `**` are kept after `*`-stripping regardless of
cleaned-up length), and cap the result at 3 points per category. -/
theorem C5_extraction_pipeline (text : String) (sectionNames : List String) :
    extract_annotation_points text sectionNames =
      ((collectLoop sectionNames (pyLines text) false).filterMap keepLine).take 3 := by
  unfold extract_annotation_points
  rw [extractLoop_eq_filterMap]
  simp

/-- Counterexample to C5 as stated: a bullet line whose after-colon portion is
exactly 10 characters (and ≤ 60, hence claimed to be retained) is dropped —
the code keeps a cleaned-up line only when its length is strictly greater
than 10, so this section yields no points at all. -/
theorem C5_ten_char_detail_dropped :
    pyStrip (afterFirstColon (cleanDecorations (pyStrip "- abcde: abcdefghij"))) =
      "abcdefghij" ∧
    ("abcdefghij" : String).length = 10 ∧
    extract_annotation_points "## Areas for Improvement\n- abcde: abcdefghij"
      ["Areas for Improvement"] = [] := by
  refine ⟨by decide, by decide, by decide⟩

/-- Bullet-branch cleanup is a contiguous substring of the fully
decoration-stripped line. -/
theorem bullet_point_sub (line : String) (c2 : String)
    (hc2 : c2 = cleanDecorations line ∨
          c2 = pyStrip (afterFirstColon (cleanDecorations line)) ∨
          c2 = pyStrip (beforeFirstColon (cleanDecorations line))) :
    c2.data <:+: (removeChar '•' (removeChar '-' (removeChar '#' (removeChar '*' line)))).data := by
  have hbase := cleanDecorations_data_sub line
  rcases hc2 with rfl | rfl | rfl
  · exact hbase
  · exact ((pyStrip_data_sub _).trans (afterFirstColon_data_sub _)).trans hbase
  · exact ((pyStrip_data_sub _).trans (beforeFirstColon_data_sub _)).trans hbase

/-- Every point accumulated by the extraction loop is either an original
accumulator entry or derived from one of the scanned lines: a bullet-branch
cleanup (substring of the fully decoration-stripped stripped line) or a
standalone-branch cleanup (substring of the `*`-stripped stripped line). -/
theorem extractLoop_points_provenance (sectionNames : List String) :
    ∀ (lines : List String) (inSection : Bool) (points : List String),
      ∀ p ∈ extractLoop sectionNames lines inSection points,
        p ∈ points ∨ ∃ l ∈ lines,
          p.data <:+: (removeChar '•' (removeChar '-' (removeChar '#'
            (removeChar '*' (pyStrip l))))).data ∨
          p.data <:+: (removeChar '*' (pyStrip l)).data := by
  intro lines
  induction lines with
  | nil =>
    intro inSection points p hp
    simp only [extractLoop] at hp
    exact Or.inl hp
  | cons l rest ih =>
    intro inSection points p hp
    have hstep : ∀ (s : Bool) (pts : List String),
        p ∈ extractLoop sectionNames rest s pts →
        p ∈ pts ∨ ∃ l' ∈ l :: rest,
          p.data <:+: (removeChar '•' (removeChar '-' (removeChar '#'
            (removeChar '*' (pyStrip l'))))).data ∨
          p.data <:+: (removeChar '*' (pyStrip l')).data := by
      intro s pts hmem
      rcases ih s pts p hmem with h | ⟨l', hl', hinf⟩
      · exact Or.inl h
      · exact Or.inr ⟨l', List.mem_cons_of_mem _ hl', hinf⟩
    simp only [extractLoop] at hp
    by_cases h1 : isSectionHeaderLine sectionNames (pyStrip l)
    · rw [if_pos h1] at hp
      exact hstep true points hp
    · rw [if_neg h1] at hp
      by_cases h2 : (inSection && isExitHeaderLine sectionNames (pyStrip l)) = true
      · rw [if_pos h2] at hp
        exact Or.inl hp
      · rw [if_neg h2] at hp
        by_cases h3 : (inSection && !(pyStrip l == "")) = true
        · rw [if_pos h3] at hp
          by_cases h4 : startsWithAny (pyStrip l) introPrefixes
          · rw [if_pos h4] at hp
            exact hstep inSection points hp
          · rw [if_neg h4] at hp
            by_cases h5 : startsWithAny (pyStrip l) bulletPrefixes
            · rw [if_pos h5] at hp
              by_cases h6 : strContains (cleanDecorations (pyStrip l)) ":"
              · rw [if_pos h6] at hp
                by_cases h7 : (pyStrip (afterFirstColon (cleanDecorations (pyStrip l)))).length ≤ 60
                · rw [if_pos h7] at hp
                  by_cases h8 : (!(pyStrip (afterFirstColon (cleanDecorations (pyStrip l))) == "") &&
                      10 < (pyStrip (afterFirstColon (cleanDecorations (pyStrip l)))).length) = true
                  · rw [if_pos h8] at hp
                    rcases hstep inSection _ hp with hmem | hrec
                    · rcases List.mem_append.mp hmem with hmem2 | hmem2
                      · exact Or.inl hmem2
                      · refine Or.inr ⟨l, List.mem_cons_self l rest, Or.inl ?_⟩
                        rw [List.mem_singleton.mp hmem2]
                        exact bullet_point_sub (pyStrip l) _ (Or.inr (Or.inl rfl))
                    · exact Or.inr hrec
                  · rw [if_neg h8] at hp
                    exact hstep inSection points hp
                · rw [if_neg h7] at hp
                  by_cases h8 : (!(pyStrip (beforeFirstColon (cleanDecorations (pyStrip l))) == "") &&
                      10 < (pyStrip (beforeFirstColon (cleanDecorations (pyStrip l)))).length) = true
                  · rw [if_pos h8] at hp
                    rcases hstep inSection _ hp with hmem | hrec
                    · rcases List.mem_append.mp hmem with hmem2 | hmem2
                      · exact Or.inl hmem2
                      · refine Or.inr ⟨l, List.mem_cons_self l rest, Or.inl ?_⟩
                        rw [List.mem_singleton.mp hmem2]
                        exact bullet_point_sub (pyStrip l) _ (Or.inr (Or.inr rfl))
                    · exact Or.inr hrec
                  · rw [if_neg h8] at hp
                    exact hstep inSection points hp
              · rw [if_neg h6] at hp
                by_cases h8 : (!(cleanDecorations (pyStrip l) == "") &&
                    10 < (cleanDecorations (pyStrip l)).length) = true
                · rw [if_pos h8] at hp
                  rcases hstep inSection _ hp with hmem | hrec
                  · rcases List.mem_append.mp hmem with hmem2 | hmem2
                    · exact Or.inl hmem2
                    · refine Or.inr ⟨l, List.mem_cons_self l rest, Or.inl ?_⟩
                      rw [List.mem_singleton.mp hmem2]
                      exact bullet_point_sub (pyStrip l) _ (Or.inl rfl)
                  · exact Or.inr hrec
                · rw [if_neg h8] at hp
                  exact hstep inSection points hp
            · rw [if_neg h5] at hp
              by_cases h9 : (20 < (pyStrip l).length && !(pyEndsWith (pyStrip l) ":") &&
                  !(strContains (pyStrip l) "**")) = true
              · rw [if_pos h9] at hp
                rcases hstep inSection _ hp with hmem | hrec
                · rcases List.mem_append.mp hmem with hmem2 | hmem2
                  · exact Or.inl hmem2
                  · refine Or.inr ⟨l, List.mem_cons_self l rest, Or.inr ?_⟩
                    rw [List.mem_singleton.mp hmem2]
                    exact pyStrip_data_sub _
                · exact Or.inr hrec
              · rw [if_neg h9] at hp
                exact hstep inSection points hp
        · rw [if_neg h3] at hp
          exact hstep inSection points hp

/-- C6 (amended): every insight string retained by the categorizer is a
contiguous substring of the original annotation text after decoration
characters are removed and whitespace trimmed — removing all of
`*`, `#`, `-`, `•` for bullet-derived insights, but only `*` for
standalone-line insights (which keep any `#`, `-` or `•` they contain). -/
theorem C6_round_trip_substring (text : String) (sectionNames : List String) :
    ∀ p ∈ extract_annotation_points text sectionNames,
      p.data <:+: (removeChar '•' (removeChar '-' (removeChar '#'
        (removeChar '*' text)))).data ∨
      p.data <:+: (removeChar '*' text).data := by
  intro p hp
  have hp2 : p ∈ extractLoop sectionNames (pyLines text) false [] :=
    List.mem_of_mem_take hp
  rcases extractLoop_points_provenance sectionNames (pyLines text) false [] p hp2 with
    hmem | ⟨l, hl, hbul | hsta⟩
  · exact absurd hmem (List.not_mem_nil p)
  · refine Or.inl (hbul.trans ?_)
    have h1 : (pyStrip l).data <:+: text.data :=
      (pyStrip_data_sub l).trans (pyLines_mem_data_sub text l hl)
    exact (((h1.filter _).filter _).filter _).filter _
  · refine Or.inr (hsta.trans ?_)
    have h1 : (pyStrip l).data <:+: text.data :=
      (pyStrip_data_sub l).trans (pyLines_mem_data_sub text l hl)
    exact h1.filter _

/-- Counterexample to C6 as stated: a standalone (non-bullet) in-section line
containing `-` is retained verbatim, and is not a substring of the text with
all decoration characters (`*`, `#`, `-`, `•`) removed. -/
theorem C6_standalone_keeps_decorations :
    extract_annotation_points "## Areas for Improvement\nabc-def ghij klmnopqrs"
      ["Areas for Improvement"] = ["abc-def ghij klmnopqrs"] ∧
    ¬ (("abc-def ghij klmnopqrs" : String).data <:+:
        (removeChar '•' (removeChar '-' (removeChar '#' (removeChar '*'
          "## Areas for Improvement\nabc-def ghij klmnopqrs")))).data) := by
  refine ⟨by decide, by decide⟩

/-- Witness for C6 (amended): a retained standalone insight is a substring of
the `*`-stripped (or fully stripped) text. -/
theorem C6_round_trip_substring_witness :
    ("abc-def ghij klmnopqrs" : String).data <:+:
      (removeChar '•' (removeChar '-' (removeChar '#' (removeChar '*'
        "## Areas for Improvement\nabc-def ghij klmnopqrs")))).data ∨
    ("abc-def ghij klmnopqrs" : String).data <:+:
      (removeChar '*' "## Areas for Improvement\nabc-def ghij klmnopqrs").data :=
  C6_round_trip_substring "## Areas for Improvement\nabc-def ghij klmnopqrs"
    ["Areas for Improvement"] "abc-def ghij klmnopqrs" (by decide)

/-- The truncated redraw always carries a trailing ellipsis. -/
theorem truncateWithEllipsis_ends (s : String) :
    ∃ t, truncateWithEllipsis s = t ++ "..." := by
  unfold truncateWithEllipsis
  split
  · exact ⟨_, rfl⟩
  · exact ⟨"", (str_empty_append _).symm⟩

/-- The priority-derived font size is positive. -/
theorem fontSizeFor_pos (priority : Nat) : 0 < fontSizeFor priority := by
  unfold fontSizeFor
  split_ifs <;> norm_num

/-- Bounds invariant of the rendering loop: provided the running offset is at
least 8 and (once a line has been drawn) still inside the box, every emitted
draw operation sits at `x0 + 6` and its baseline stays within
`(y0, y0 + height - 8]`. -/
theorem addSmartTextLoop_bounds (rect : Rect) (fs : ℚ) (hfs : 0 < fs) :
    ∀ (lines : List String) (i : Nat) (yOff : ℚ) (prev : Option String),
      8 ≤ yOff → (0 < i → yOff ≤ rect.height - 8) →
      ∀ op ∈ addSmartTextLoop rect fs lines i yOff prev,
        op.x = rect.x0 + 6 ∧ rect.y0 < op.y ∧ op.y ≤ rect.y0 + rect.height - 8 := by
  intro lines
  induction lines with
  | nil =>
    intro i yOff prev _ _ op hop
    exact absurd hop (List.not_mem_nil op)
  | cons line rest ih =>
    intro i yOff prev hy8 hyin op hop
    simp only [addSmartTextLoop] at hop
    by_cases hov : rect.height - 8 < yOff + (fs + 3)
    · rw [if_pos hov] at hop
      by_cases hi : 0 < i
      · rw [if_pos hi] at hop
        rw [List.mem_singleton.mp hop]
        refine ⟨rfl, ?_, ?_⟩
        · show rect.y0 < rect.y0 + (yOff - (fs + 3)) + (fs + 3)
          linarith
        · show rect.y0 + (yOff - (fs + 3)) + (fs + 3) ≤ rect.y0 + rect.height - 8
          have := hyin hi
          linarith
      · rw [if_neg hi] at hop
        exact absurd hop (List.not_mem_nil op)
    · rw [if_neg hov] at hop
      rcases List.mem_cons.mp hop with rfl | htail
      · refine ⟨rfl, ?_, ?_⟩
        · show rect.y0 < rect.y0 + yOff + (fs + 3)
          linarith
        · show rect.y0 + yOff + (fs + 3) ≤ rect.y0 + rect.height - 8
          linarith
      · exact ih (i + 1) (yOff + (fs + 3)) (some line) (by linarith)
          (fun _ => by linarith) op htail

/-- The rendering loop draws at most one operation per wrapped line. -/
theorem addSmartTextLoop_length (rect : Rect) (fs : ℚ) :
    ∀ (lines : List String) (i : Nat) (yOff : ℚ) (prev : Option String),
      (addSmartTextLoop rect fs lines i yOff prev).length ≤ lines.length := by
  intro lines
  induction lines with
  | nil =>
    intro i yOff prev
    simp [addSmartTextLoop]
  | cons line rest ih =>
    intro i yOff prev
    simp only [addSmartTextLoop]
    by_cases hov : rect.height - 8 < yOff + (fs + 3)
    · rw [if_pos hov]
      by_cases hi : 0 < i
      · rw [if_pos hi]
        simp
      · rw [if_neg hi]
        simp
    · rw [if_neg hov]
      simpa using ih (i + 1) (yOff + (fs + 3)) (some line)

/-- When every line fits, the rendering loop draws exactly the wrapped
lines, in order. -/
theorem addSmartTextLoop_all_fit (rect : Rect) (fs : ℚ) :
    ∀ (lines : List String) (i : Nat) (yOff : ℚ) (prev : Option String),
      (∀ k : Nat, k < lines.length →
        ¬ (rect.height - 8 < yOff + (k : ℚ) * (fs + 3) + (fs + 3))) →
      (addSmartTextLoop rect fs lines i yOff prev).map TextOp.text = lines := by
  intro lines
  induction lines with
  | nil =>
    intro i yOff prev _
    simp [addSmartTextLoop]
  | cons line rest ih =>
    intro i yOff prev hfit
    simp only [addSmartTextLoop]
    have h0 : ¬ (rect.height - 8 < yOff + (fs + 3)) := by
      have := hfit 0 (Nat.succ_pos _)
      simpa using this
    rw [if_neg h0]
    simp only [List.map_cons, List.cons.injEq]
    refine ⟨trivial, ih (i + 1) (yOff + (fs + 3)) (some line) ?_⟩
    intro k hk
    have := hfit (k + 1) (by simpa using Nat.succ_lt_succ hk)
    push_cast at this ⊢
    intro hcon
    apply this
    linarith

/-- When some line does not fit, the rendering loop either draws nothing (the
very first line already overflows) or its final draw operation carries a
trailing ellipsis; once a line has been drawn the result is never empty. -/
theorem addSmartTextLoop_overflow (rect : Rect) (fs : ℚ) :
    ∀ (lines : List String) (i : Nat) (yOff : ℚ) (prev : Option String),
      (∃ k : Nat, k < lines.length ∧
        rect.height - 8 < yOff + (k : ℚ) * (fs + 3) + (fs + 3)) →
      (0 < i → addSmartTextLoop rect fs lines i yOff prev ≠ []) ∧
      (addSmartTextLoop rect fs lines i yOff prev = [] ∨
       ∃ s, ((addSmartTextLoop rect fs lines i yOff prev).getLastD cDefaultOp).text =
         s ++ "...") := by
  intro lines
  induction lines with
  | nil =>
    intro i yOff prev hex
    rcases hex with ⟨k, hk, _⟩
    exact absurd hk (Nat.not_lt_zero k)
  | cons line rest ih =>
    intro i yOff prev hex
    simp only [addSmartTextLoop]
    by_cases hov : rect.height - 8 < yOff + (fs + 3)
    · rw [if_pos hov]
      by_cases hi : 0 < i
      · rw [if_pos hi]
        refine ⟨fun _ => by simp, Or.inr ?_⟩
        rcases truncateWithEllipsis_ends ((prev.getD "")) with ⟨t, ht⟩
        exact ⟨t, by simpa using ht⟩
      · rw [if_neg hi]
        exact ⟨fun h => absurd h hi, Or.inl rfl⟩
    · rw [if_neg hov]
      have hex2 : ∃ k : Nat, k < rest.length ∧
          rect.height - 8 < (yOff + (fs + 3)) + (k : ℚ) * (fs + 3) + (fs + 3) := by
        rcases hex with ⟨k, hk, hkov⟩
        rcases k with _ | k'
        · exact absurd (by simpa using hkov) hov
        · refine ⟨k', by simpa using Nat.lt_of_succ_lt_succ hk, ?_⟩
          push_cast at hkov ⊢
          linarith
      have htail := ih (i + 1) (yOff + (fs + 3)) (some line) hex2
      have htail_ne : addSmartTextLoop rect fs rest (i + 1) (yOff + (fs + 3)) (some line) ≠ [] :=
        htail.1 (Nat.succ_pos i)
      refine ⟨fun _ => by simp, Or.inr ?_⟩
      rcases htail.2 with hnil | ⟨s, hs⟩
      · exact absurd hnil htail_ne
      · refine ⟨s, ?_⟩
        rcases hL : addSmartTextLoop rect fs rest (i + 1) (yOff + (fs + 3)) (some line) with
          _ | ⟨b0, bs⟩
        · exact absurd hL htail_ne
        · rw [hL] at hs
          rw [List.getLastD_cons, List.getLastD_cons]
          rw [List.getLastD_cons] at hs
          exact hs

/-- C8: every text-draw operation issued by `_add_smart_text` lies within the
box's text-safe rectangle — `x` at the 6-unit inset and the baseline strictly
below the top and at most `height - 8` from the top, never below the bottom
bound; at most one operation is issued per wrapped line; when every wrapped
line fits the available height the lines are drawn exactly and in order; and
when some line does not fit, rendering stops and either nothing was drawn
(the first line already overflows) or the final operation drawn carries a
trailing ellipsis (the truncated redraw of the last fitting line). -/
theorem C8_renderer_truncation (text : String) (rect : Rect) (priority : Nat) :
    (∀ op ∈ add_smart_text text rect priority,
      op.x = rect.x0 + 6 ∧ rect.y0 < op.y ∧ op.y ≤ rect.y0 + rect.height - 8) ∧
    (add_smart_text text rect priority).length ≤
      (calculate_text_dimensions text (fontSizeFor priority) (rect.width - 12)).2.2.length ∧
    ((∀ k : Nat,
        k < (calculate_text_dimensions text (fontSizeFor priority) (rect.width - 12)).2.2.length →
        ¬ (rect.height - 8 < 8 + (k : ℚ) * (fontSizeFor priority + 3) + (fontSizeFor priority + 3))) →
      (add_smart_text text rect priority).map TextOp.text =
        (calculate_text_dimensions text (fontSizeFor priority) (rect.width - 12)).2.2) ∧
    ((∃ k : Nat,
        k < (calculate_text_dimensions text (fontSizeFor priority) (rect.width - 12)).2.2.length ∧
        rect.height - 8 < 8 + (k : ℚ) * (fontSizeFor priority + 3) + (fontSizeFor priority + 3)) →
      add_smart_text text rect priority = [] ∨
      ∃ s, ((add_smart_text text rect priority).getLastD cDefaultOp).text = s ++ "...") := by
  simp only [add_smart_text]
  refine ⟨?_, ?_, ?_, ?_⟩
  · exact addSmartTextLoop_bounds rect (fontSizeFor priority) (fontSizeFor_pos priority)
      _ 0 8 none (le_refl _) (fun h => absurd h (Nat.lt_irrefl 0))
  · exact addSmartTextLoop_length rect (fontSizeFor priority) _ 0 8 none
  · exact addSmartTextLoop_all_fit rect (fontSizeFor priority) _ 0 8 none
  · intro hex
    exact (addSmartTextLoop_overflow rect (fontSizeFor priority) _ 0 8 none hex).2

/-- Witness for C8 at a 150×45 box and a 12-word insight that wraps into 3
lines of which only 2 fit: the renderer truncates rather than drawing below
the box. -/
theorem C8_renderer_truncation_witness :
    add_smart_text
        "aaaa bbbb cccc dddd eeee ffff gggg hhhh iiii jjjj kkkk llll"
        ⟨0, 0, 150, 45⟩ 1 = [] ∨
    ∃ s, ((add_smart_text
        "aaaa bbbb cccc dddd eeee ffff gggg hhhh iiii jjjj kkkk llll"
        ⟨0, 0, 150, 45⟩ 1).getLastD cDefaultOp).text = s ++ "..." :=
  (C8_renderer_truncation
      "aaaa bbbb cccc dddd eeee ffff gggg hhhh iiii jjjj kkkk llll"
      ⟨0, 0, 150, 45⟩ 1).2.2.2
    ⟨2, by decide, by norm_num [fontSizeFor, Rect.height]⟩
